import Mathlib

/-!
Shallow embedding of the feature functions and configuration of the
`nli_02_models` notebook, together with proofs of its specification claims.
Trees stand for parsed sentences; Python `Counter`s built from a list are
embedded as the multiplicity function of that list; `set(...)` becomes
`List.dedup`; `sorted(...)` becomes insertion sort for the string order.
-/

namespace NLI

/-- nltk-style parse tree: internal nodes carry a label and a list of
children, leaves carry a word. -/
inductive Tree where
  | leaf (word : String)
  | node (label : String) (children : List Tree)

mutual

/-- Embedding of `tree.leaves()`: the words at the leaves, left to right. -/
def Tree.leaves : Tree → List String
  | .leaf w => [w]
  | .node _ cs => leavesList cs

/-- Leaves of a list of trees, concatenated in order. -/
def leavesList : List Tree → List String
  | [] => []
  | t :: ts => t.leaves ++ leavesList ts

end

/-- Embedding of `word_overlap_phi(t1, t2)`: the Python code forms
`set([w1 for w1 in t1.leaves() if w1 in t2.leaves()])` and wraps it in a
`Counter`; the result is the multiplicity function of the deduplicated
filtered list. -/
def word_overlap_phi (t1 t2 : Tree) : String → Nat :=
  let overlap := (t1.leaves.filter (fun w1 => decide (w1 ∈ t2.leaves))).dedup
  fun w => overlap.count w

/-- Embedding of `word_cross_product_phi(t1, t2)`: a `Counter` over
`product(t1.leaves(), t2.leaves())`, i.e. the multiplicity function of the
list cross-product. -/
def word_cross_product_phi (t1 t2 : Tree) : String × String → Nat :=
  fun p => (t1.leaves ×ˢ t2.leaves).count p

/-- Embedding of `simple_chained_rep_rnn_phi(t1, t2)`:
`t1.leaves() + t2.leaves()`. -/
def simple_chained_rep_rnn_phi (t1 t2 : Tree) : List String :=
  t1.leaves ++ t2.leaves

/-- Embedding of `sentence_rep_rnn_phi(t1, t2)`:
`[t1.leaves(), t2.leaves()]`. -/
def sentence_rep_rnn_phi (t1 t2 : Tree) : List (List String) :=
  [t1.leaves, t2.leaves]

/-- Multiplicity of a pair in a list of pairs sharing a fixed first
component. -/
theorem count_pair_map (x a b : String) (l2 : List String) :
    (l2.map (fun y => (x, y))).count (a, b) = if x = a then l2.count b else 0 := by
  induction l2 with
  | nil => simp
  | cons z l2 ih =>
    simp only [List.map_cons, List.count_cons, ih]
    by_cases hx : x = a
    · subst hx
      by_cases hz : z = b
      · subst hz; simp
      · simp [hz, Prod.ext_iff]
    · simp [hx, Prod.ext_iff]

/-- Multiplicity of a pair in a list cross-product is the product of the
multiplicities of its components. -/
theorem count_product (l1 l2 : List String) (a b : String) :
    (l1 ×ˢ l2).count (a, b) = l1.count a * l2.count b := by
  induction l1 with
  | nil => simp
  | cons x l1 ih =>
    rw [List.product_cons, List.count_append, ih, count_pair_map, List.count_cons]
    by_cases hx : x = a
    · subst hx
      simp [Nat.add_mul, Nat.add_comm]
    · simp [hx]

/-- C1. `word_cross_product_phi(t1, t2)` maps each pair `(w1, w2)` to the
number of occurrences of `w1` among the leaves of `t1` times the number of
occurrences of `w2` among the leaves of `t2`, and a pair has positive count
exactly when `w1` is a leaf of `t1` and `w2` a leaf of `t2` (so the keys of
the counter are exactly those pairs). -/
theorem word_cross_product_phi_spec (t1 t2 : Tree) (w1 w2 : String) :
    word_cross_product_phi t1 t2 (w1, w2)
        = t1.leaves.count w1 * t2.leaves.count w2
    ∧ (0 < word_cross_product_phi t1 t2 (w1, w2)
        ↔ w1 ∈ t1.leaves ∧ w2 ∈ t2.leaves) := by
  constructor
  · exact count_product _ _ _ _
  · rw [word_cross_product_phi, List.count_pos_iff]
    exact List.mem_product

/-- C2. `word_overlap_phi(t1, t2)` maps a word to `1` when it occurs among
the leaves of both trees and to `0` otherwise: the key set is exactly the
overlap, and every key has count `1` regardless of multiplicities. -/
theorem word_overlap_phi_spec (t1 t2 : Tree) (w : String) :
    word_overlap_phi t1 t2 w
      = if w ∈ t1.leaves ∧ w ∈ t2.leaves then 1 else 0 := by
  unfold word_overlap_phi
  rw [List.count_dedup]
  simp [List.mem_filter]

/-- C5. `simple_chained_rep_rnn_phi(t1, t2)` is the single sequence of the
premise leaves followed, in order, by the hypothesis leaves. -/
theorem simple_chained_rep_rnn_phi_spec (t1 t2 : Tree) :
    simple_chained_rep_rnn_phi t1 t2 = t1.leaves ++ t2.leaves :=
  rfl

/-! Dense featurizer: `glove_leaves_phi` and `_get_tree_vecs`. The GloVe
lookup is a Python dict from words to vectors; it is embedded as an
association list (dict order = insertion order), with vector entries over
`Int` (the numeric values play no role in the claims). -/

/-- Embedding of `w in lookup` / `lookup[w]` on the association list. -/
def dictLookup (lk : List (String × List Int)) (w : String) : Option (List Int) :=
  (lk.find? (fun p => p.1 == w)).map Prod.snd

/-- Length of the first value of the lookup, i.e. the Python
`len(next(iter(lookup.values())))`; `0` is never used because that Python
expression raises on an empty dict, which `get_tree_vecs` models by `none`. -/
def embedDim : List (String × List Int) → Nat
  | [] => 0
  | (_, v) :: _ => v.length

/-- Embedding of `np.sum(allvecs, axis=0)`: columnwise sum of the rows. -/
def npSumRows : List (List Int) → List Int
  | [] => []
  | [v] => v
  | v :: vs => List.zipWith (· + ·) v (npSumRows vs)

/-- Embedding of `_get_tree_vecs(tree, lookup, np.sum)`: rows are
`[lookup[w] for w in tree.leaves() if w in lookup]` (missing words are
skipped), an all-zeros vector of the lookup dimension replaces an empty row
list, and `none` models the `StopIteration` raised on an empty lookup. -/
def get_tree_vecs (t : Tree) (lk : List (String × List Int)) : Option (List Int) :=
  let allvecs := t.leaves.filterMap (dictLookup lk)
  if allvecs.isEmpty then
    match lk with
    | [] => none
    | (_, v) :: _ => some (List.replicate v.length 0)
  else some (npSumRows allvecs)

/-- Embedding of `glove_leaves_phi(t1, t2)` at the default `np_func=np.sum`:
the concatenation of the two tree vectors. -/
def glove_leaves_phi (t1 t2 : Tree) (lk : List (String × List Int)) :
    Option (List Int) :=
  match get_tree_vecs t1 lk, get_tree_vecs t2 lk with
  | some p, some q => some (p ++ q)
  | _, _ => none

/-- Tree vector of any tree exists for a non-empty lookup, and is the
all-zeros vector of the lookup dimension when no leaf is in the lookup. -/
theorem get_tree_vecs_total (lk : List (String × List Int)) (t : Tree)
    (hlk : lk ≠ []) :
    ∃ p, get_tree_vecs t lk = some p ∧
      (t.leaves.filterMap (dictLookup lk) = [] →
        p = List.replicate (embedDim lk) 0) := by
  obtain ⟨e, rest, rfl⟩ : ∃ e rest, lk = e :: rest := by
    cases lk with
    | nil => exact absurd rfl hlk
    | cons e r => exact ⟨e, r, rfl⟩
  obtain ⟨w0, v0⟩ := e
  by_cases hav : t.leaves.filterMap (dictLookup ((w0, v0) :: rest)) = []
  · refine ⟨List.replicate v0.length 0, ?_, fun _ => rfl⟩
    simp [get_tree_vecs, hav]
  · refine ⟨npSumRows (t.leaves.filterMap (dictLookup ((w0, v0) :: rest))),
      ?_, fun h => absurd h hav⟩
    simp [get_tree_vecs, hav]

/-- C3. For a non-empty lookup, `glove_leaves_phi` is defined on every tree
pair (missing words having been skipped rather than raising), it returns the
concatenation of the premise vector and the hypothesis vector, and a tree
none of whose leaves is in the lookup is represented by the all-zeros vector
of the lookup's embedding dimension. -/
theorem glove_leaves_phi_spec (lk : List (String × List Int)) (t1 t2 : Tree)
    (hlk : lk ≠ []) :
    ∃ p q, get_tree_vecs t1 lk = some p ∧ get_tree_vecs t2 lk = some q ∧
      glove_leaves_phi t1 t2 lk = some (p ++ q) ∧
      (t1.leaves.filterMap (dictLookup lk) = [] →
        p = List.replicate (embedDim lk) 0) ∧
      (t2.leaves.filterMap (dictLookup lk) = [] →
        q = List.replicate (embedDim lk) 0) := by
  obtain ⟨p, hp, hp0⟩ := get_tree_vecs_total lk t1 hlk
  obtain ⟨q, hq, hq0⟩ := get_tree_vecs_total lk t2 hlk
  exact ⟨p, q, hp, hq, by rw [glove_leaves_phi, hp, hq], hp0, hq0⟩

/-- C3 witness: a concrete one-entry lookup, a premise whose only word is
missing from it, and a hypothesis whose word is present. -/
theorem glove_leaves_phi_spec_witness :
    ∃ p q,
      get_tree_vecs (Tree.leaf "x") [("a", [1, 2])] = some p ∧
      get_tree_vecs (Tree.leaf "a") [("a", [1, 2])] = some q ∧
      glove_leaves_phi (Tree.leaf "x") (Tree.leaf "a") [("a", [1, 2])]
        = some (p ++ q) ∧
      ((Tree.leaf "x").leaves.filterMap (dictLookup [("a", [1, 2])]) = [] →
        p = List.replicate (embedDim [("a", [1, 2])]) 0) ∧
      ((Tree.leaf "a").leaves.filterMap (dictLookup [("a", [1, 2])]) = [] →
        q = List.replicate (embedDim [("a", [1, 2])]) 0) :=
  glove_leaves_phi_spec [("a", [1, 2])] (Tree.leaf "x") (Tree.leaf "a")
    (by decide)

/-! Dataset path configuration. -/

/-- Embedding of `os.path.join` for the relative path fragments used here. -/
def os_path_join (a b : String) : String := a ++ "/" ++ b

/-- Embedding of `data_home = "nlidata"`. -/
def data_home : String := "nlidata"

/-- Embedding of `snli_home = os.path.join(data_home, "snli_1.0")`. -/
def snli_home : String := os_path_join data_home "snli_1.0"

/-- Embedding of `multinli_home = os.path.join(data_home, "multinl_i.0")`,
exactly as the notebook writes the directory name. -/
def multinli_home : String := os_path_join data_home "multinl_i.0"

/-- C8. `multinli_home` evaluates to `"nlidata/multinl_i.0"`, which differs
from joining the data home with the MultiNLI 1.0 dataset directory name
`"multinli_1.0"`: the code's string is a typo. -/
theorem multinli_home_is_misspelled :
    multinli_home = "nlidata/multinl_i.0" ∧
    multinli_home ≠ os_path_join data_home "multinli_1.0" := by
  constructor
  · rfl
  · decide

/-! Logistic-regression configuration of
`fit_maxent_classifier_with_preselected_params`. -/

/-- Constructor arguments that the notebook passes to
`LogisticRegression(...)`. -/
structure LogisticRegressionConfig where
  fit_intercept : Bool
  penalty : String
  solver : String
  C : ℚ

/-- Embedding of the configuration built inside
`fit_maxent_classifier_with_preselected_params`:
`LogisticRegression(fit_intercept=True, penalty='ll', solver='saga', C=0.4)`. -/
def fit_maxent_preselected_config : LogisticRegressionConfig :=
  { fit_intercept := true, penalty := "ll", solver := "saga", C := 2 / 5 }

/-- Modelled from the spec: the penalty names accepted by the external
logistic-regression library (scikit-learn's `LogisticRegression`, not part
of this repository). With the saga solver the accepted values are `l1`,
`l2`, `elasticnet` and `none`; any other string makes `fit` raise a
configuration `ValueError`. -/
def accepted_penalties : List String := ["l1", "l2", "elasticnet", "none"]

/-- C4. The penalty the notebook configures is the string `"ll"`, which is
not an accepted penalty setting, so `fit` raises a configuration error
instead of returning a fitted model. -/
theorem fit_maxent_preselected_penalty_invalid :
    fit_maxent_preselected_config.penalty = "ll" ∧
    fit_maxent_preselected_config.penalty ∉ accepted_penalties := by
  constructor
  · rfl
  · decide

/-! Structural embedding of the TensorFlow graph that
`TfNLISentenceRepRNN.build_graph` constructs. Symbolic tensors become
expression trees; the claims concern which placeholders feed which
subgraphs, not numeric semantics. -/

/-- Symbolic tensor expressions: placeholders, trainable variables,
embedding lookups, the final state of a `dynamic_rnn` under a variable
scope, concatenation, matrix product and addition. -/
inductive TFExpr where
  | placeholder (name : String)
  | tfVar (name : String)
  | embeddingLookup (emb ids : TFExpr)
  | dynamicRNN (scope : String) (feats lengths : TFExpr)
  | concat (a b : TFExpr)
  | matmul (a b : TFExpr)
  | add (a b : TFExpr)
deriving DecidableEq

/-- Whether the placeholder named `m` occurs anywhere in the expression. -/
def TFExpr.mentionsPH : TFExpr → String → Bool
  | .placeholder n, m => n == m
  | .tfVar _, _ => false
  | .embeddingLookup a b, m => a.mentionsPH m || b.mentionsPH m
  | .dynamicRNN _ a b, m => a.mentionsPH m || b.mentionsPH m
  | .concat a b, m => a.mentionsPH m || b.mentionsPH m
  | .matmul a b, m => a.mentionsPH m || b.mentionsPH m
  | .add a b, m => a.mentionsPH m || b.mentionsPH m

/-- The embedding tensor created by `self._define_embedding()`. -/
def embedding : TFExpr := .tfVar "embedding"

/-- Embedding of `build_premise_graph`: an RNN over the embedded premise
placeholder, under the `premise` scope, returning its final state. -/
def build_premise_graph : TFExpr :=
  .dynamicRNN "premise"
    (.embeddingLookup embedding (.placeholder "premises"))
    (.placeholder "prem_lengths")

/-- Embedding of `build_hypothesis_graph`: an RNN over the embedded
hypothesis placeholder, under the `hypothesis` scope. -/
def build_hypothesis_graph : TFExpr :=
  .dynamicRNN "hypothesis"
    (.embeddingLookup embedding (.placeholder "hypotheses"))
    (.placeholder "hyp_lengths")

/-- The tensors `build_graph` stores on the model object. -/
structure SentenceRepGraph where
  prem_last : TFExpr
  hyp_last : TFExpr
  last : TFExpr
  model : TFExpr

/-- Embedding of `TfNLISentenceRepRNN.build_graph`: separate premise and
hypothesis encoders, concatenated, then a single affine output layer. -/
def build_graph : SentenceRepGraph :=
  let prem_last := build_premise_graph
  let hyp_last := build_hypothesis_graph
  let last := TFExpr.concat prem_last hyp_last
  { prem_last := prem_last, hyp_last := hyp_last, last := last,
    model := .add (.matmul last (.tfVar "W_ly")) (.tfVar "b_y") }

/-- C6. `sentence_rep_rnn_phi` keeps the two leaf lists separate, the
premise encoder never reads the hypothesis placeholders and vice versa, and
the two final states meet only in the concatenation feeding the affine
output layer. -/
theorem sentence_encoding_keeps_sentences_separate :
    (∀ t1 t2, sentence_rep_rnn_phi t1 t2 = [t1.leaves, t2.leaves]) ∧
    build_graph.prem_last.mentionsPH "hypotheses" = false ∧
    build_graph.prem_last.mentionsPH "hyp_lengths" = false ∧
    build_graph.hyp_last.mentionsPH "premises" = false ∧
    build_graph.hyp_last.mentionsPH "prem_lengths" = false ∧
    build_graph.last = .concat build_graph.prem_last build_graph.hyp_last ∧
    build_graph.model
      = .add (.matmul build_graph.last (.tfVar "W_ly")) (.tfVar "b_y") := by
  exact ⟨fun t1 t2 => rfl, by decide, by decide, by decide, by decide,
    rfl, rfl⟩

/-! Vocabulary extraction: `get_vocab`. -/

/-- Embedding of `Counter(...).most_common(n)`: the count pairs in
descending order of count, truncated to the `n` largest. -/
def most_common (wc : List (String × Nat)) (n : Nat) : List (String × Nat) :=
  (wc.insertionSort (fun p q => q.2 ≤ p.2)).take n

/-- Embedding of `get_vocab(X, n_words)`: count every word of every sentence
of every pair, keep all counts (falsy `n_words`, i.e. `None` or `0`) or the
`n_words` most common, add `"$UNK"` to the word set, and return it sorted. -/
def get_vocab (X : List (List (List String))) (n_words : Option Nat) :
    List String :=
  let ws := X.flatMap (fun pair => pair.flatMap id)
  let wc : List (String × Nat) := ws.dedup.map (fun w => (w, ws.count w))
  let wc2 := match n_words with
    | some n => if n ≠ 0 then most_common wc n else wc
    | none => wc
  (("$UNK" :: wc2.map Prod.fst).dedup).insertionSort (· ≤ ·)

/-- Truncation bound of `most_common`. -/
theorem most_common_length_le (wc : List (String × Nat)) (n : Nat) :
    (most_common wc n).length ≤ n := by
  unfold most_common
  exact List.length_take_le _ _

/-- C9. Every vocabulary contains `"$UNK"`, is sorted in ascending order
without duplicates, and with a positive `n_words` has at most
`n_words + 1` entries. -/
theorem get_vocab_spec (X : List (List (List String))) (nw : Option Nat) :
    "$UNK" ∈ get_vocab X nw ∧
    (get_vocab X nw).Sorted (· ≤ ·) ∧
    (get_vocab X nw).Nodup ∧
    (∀ n, nw = some n → 0 < n → (get_vocab X nw).length ≤ n + 1) := by
  unfold get_vocab
  refine ⟨?_, ?_, ?_, ?_⟩
  · rw [(List.perm_insertionSort _ _).mem_iff, List.mem_dedup]
    exact List.mem_cons_self _ _
  · exact List.sorted_insertionSort _ _
  · exact ((List.perm_insertionSort _ _).nodup_iff).mpr (List.nodup_dedup _)
  · intro n hn hpos
    subst hn
    rw [(List.perm_insertionSort _ _).length_eq]
    refine le_trans (List.dedup_sublist _).length_le ?_
    simp only [List.length_cons, List.length_map, Nat.ne_of_gt hpos,
      ne_eq, not_false_iff, if_true]
    exact Nat.succ_le_succ (most_common_length_le _ _)

/-- C9 witness: the vocabulary of a concrete two-sentence pair at
`n_words = 2`. -/
theorem get_vocab_spec_witness :
    "$UNK" ∈ get_vocab [[["b", "a"], ["a"]]] (some 2) ∧
    (get_vocab [[["b", "a"], ["a"]]] (some 2)).length ≤ 3 :=
  ⟨(get_vocab_spec [[["b", "a"], ["a"]]] (some 2)).1,
    (get_vocab_spec [[["b", "a"], ["a"]]] (some 2)).2.2.2 2 rfl (by decide)⟩

/-! Feed-dictionary construction of `TfNLISentenceRepRNN`. -/

/-- Embedding of the unpacking `X_prem, X_hyp = zip(*X)` on a list of
pairs: a non-empty list of pairs transposes to exactly the tuple of first
components and the tuple of second components, while `zip(*[])` yields an
empty iterator, so unpacking it into two names raises `ValueError`,
modelled by `none`. -/
def zipStarUnpack2 {α β : Type} (X : List (α × β)) :
    Option (List α × List β) :=
  match X with
  | [] => none
  | _ :: _ => some (X.map Prod.fst, X.map Prod.snd)

/-- Embedding of `TfNLISentenceRepRNN.train_dict(X, y)`, with `_convert_X`
(defined outside this file's scope, in the RNN base class) abstracted as
`convert` over the sentence type `α`; the result tuple carries the five
feed values in placeholder order. -/
def train_dict {α M L Y : Type} (convert : List α → M × L)
    (X : List (α × α)) (y : Y) : Option (M × M × L × L × Y) :=
  (zipStarUnpack2 X).map (fun ph =>
    let cp := convert ph.1
    let ch := convert ph.2
    (cp.1, ch.1, cp.2, ch.2, y))

/-- Embedding of `TfNLISentenceRepRNN.test_dict(X)`. -/
def test_dict {α M L : Type} (convert : List α → M × L)
    (X : List (α × α)) : Option (M × M × L × L) :=
  (zipStarUnpack2 X).map (fun ph =>
    let cp := convert ph.1
    let ch := convert ph.2
    (cp.1, ch.1, cp.2, ch.2))

/-- C10. On a non-empty list of pairs the unpacking yields exactly the
premise sequence and the hypothesis sequence and both feed dictionaries
exist; on the empty list the unpacking fails, so both methods are undefined
there. -/
theorem train_test_dict_domain {α M L Y : Type} (convert : List α → M × L)
    (X : List (α × α)) (y : Y) :
    (X ≠ [] →
      zipStarUnpack2 X = some (X.map Prod.fst, X.map Prod.snd) ∧
      (train_dict convert X y).isSome ∧ (test_dict convert X).isSome) ∧
    (X = [] →
      train_dict convert X y = none ∧ test_dict convert X = none) := by
  constructor
  · intro hne
    obtain ⟨p, rest, rfl⟩ : ∃ p rest, X = p :: rest := by
      cases X with
      | nil => exact absurd rfl hne
      | cons p r => exact ⟨p, r, rfl⟩
    exact ⟨rfl, rfl, rfl⟩
  · intro he
    subst he
    exact ⟨rfl, rfl⟩

/-- C10 witness: a one-pair input is in the domain and the empty input is
outside it, at a concrete `convert`. -/
theorem train_test_dict_domain_witness :
    zipStarUnpack2 [(([1] : List Nat), ([2] : List Nat))]
        = some ([[1]], [[2]]) ∧
    train_dict (fun l : List (List Nat) => (l, l.length))
        ([] : List (List Nat × List Nat)) 0 = none :=
  ⟨((train_test_dict_domain (fun l : List (List Nat) => (l, l.length))
      [([1], [2])] 0).1 (by decide)).1,
    ((train_test_dict_domain (fun l : List (List Nat) => (l, l.length))
      [] 0).2 rfl).1⟩

/-- C7. The feature functions are deterministic: two calls on equal inputs
(and, for the dense featurizer, equal lookup contents) return equal
outputs. The embedded functions are pure, mirroring the source, which
builds fresh counters, arrays and lists without mutating its arguments. -/
theorem feature_functions_deterministic (t1 t2 s1 s2 : Tree)
    (lk lk2 : List (String × List Int))
    (h1 : t1 = s1) (h2 : t2 = s2) (hlk : lk = lk2) :
    word_overlap_phi t1 t2 = word_overlap_phi s1 s2 ∧
    word_cross_product_phi t1 t2 = word_cross_product_phi s1 s2 ∧
    glove_leaves_phi t1 t2 lk = glove_leaves_phi s1 s2 lk2 ∧
    sentence_rep_rnn_phi t1 t2 = sentence_rep_rnn_phi s1 s2 ∧
    simple_chained_rep_rnn_phi t1 t2 = simple_chained_rep_rnn_phi s1 s2 := by
  subst h1; subst h2; subst hlk
  exact ⟨rfl, rfl, rfl, rfl, rfl⟩

/-- C7 witness: the determinism statement at a concrete tree pair and
lookup. -/
theorem feature_functions_deterministic_witness :
    word_overlap_phi (Tree.leaf "a") (Tree.leaf "b")
        = word_overlap_phi (Tree.leaf "a") (Tree.leaf "b") ∧
    word_cross_product_phi (Tree.leaf "a") (Tree.leaf "b")
        = word_cross_product_phi (Tree.leaf "a") (Tree.leaf "b") ∧
    glove_leaves_phi (Tree.leaf "a") (Tree.leaf "b") [("a", [1])]
        = glove_leaves_phi (Tree.leaf "a") (Tree.leaf "b") [("a", [1])] ∧
    sentence_rep_rnn_phi (Tree.leaf "a") (Tree.leaf "b")
        = sentence_rep_rnn_phi (Tree.leaf "a") (Tree.leaf "b") ∧
    simple_chained_rep_rnn_phi (Tree.leaf "a") (Tree.leaf "b")
        = simple_chained_rep_rnn_phi (Tree.leaf "a") (Tree.leaf "b") :=
  feature_functions_deterministic (Tree.leaf "a") (Tree.leaf "b")
    (Tree.leaf "a") (Tree.leaf "b") [("a", [1])] [("a", [1])] rfl rfl rfl

end NLI
